import Mathlib

/- Verification of the metamaska payload classification engine.

   Shallow embedding of the repository sources:
   - metamaska/payload_classifier.py (transform, predict, predict_proba, ensure_model)
   - scripts/train.py (dataset loading, accuracy gate, artifact write)
   - scripts/collect_data.py (make_record, deduplicate)

   Python strings are modelled as lists of Unicode code points (List Nat).
   The helper module metamaska.utils (unquote, remove_new_line,
   remove_whitespace) is imported by payload_classifier.py but absent from
   the source tree; those three functions are modelled from the spec, as
   marked in their doc comments. -/

deriving instance DecidableEq for Except

/-- Python string, modelled as its list of Unicode code points. -/
abbrev PyStr := List Nat

/-- Code points of a Lean string literal, for stating concrete examples. -/
def cps (s : String) : PyStr := s.data.map Char.toNat

/-- Whitespace test matching Python str.split and str.strip on ASCII input:
space, tab, newline, carriage return, vertical tab, form feed. -/
def isWs (c : Nat) : Bool :=
  c = 32 || c = 9 || c = 10 || c = 13 || c = 11 || c = 12

/-- Hex digit test for percent escapes, as in urllib unquote. -/
def isHexDigitCp (c : Nat) : Bool :=
  (48 ≤ c && c ≤ 57) || (65 ≤ c && c ≤ 70) || (97 ≤ c && c ≤ 102)

/-- Numeric value of a hex digit code point. -/
def hexVal (c : Nat) : Nat :=
  if c ≤ 57 then c - 48 else if c ≤ 70 then c - 65 + 10 else c - 97 + 10

/-- Modelled from the spec: metamaska.utils.unquote is imported by
payload_classifier.py but the utils module is missing from the source tree.
Spec section 4.1 step 1: a single URL-percent-decode pass, decoding each
two-hex-digit escape sequence and plus as space, passing malformed escapes
through unchanged rather than raising. Each escaped byte decodes to one
code point in this model. The shipped test suite pins the plus-as-space
behaviour (test_unquote). -/
def unquote : PyStr → PyStr
  | [] => []
  | 43 :: rest => 32 :: unquote rest
  | 37 :: a :: b :: rest =>
    if isHexDigitCp a && isHexDigitCp b then
      (16 * hexVal a + hexVal b) :: unquote rest
    else 37 :: unquote (a :: b :: rest)
  | 37 :: rest => 37 :: unquote rest
  | c :: rest => c :: unquote rest

/-- Modelled from the spec: metamaska.utils.remove_new_line is missing from
the source tree. Spec section 4.1 step 2: strip all newline characters,
both 10 and 13, by removing them, not replacing with space. The shipped
test suite pins this behaviour (test_remove_new_line). -/
def remove_new_line (l : PyStr) : PyStr :=
  l.filter (fun c => !(c == 10 || c == 13))

/-- Python str.lower restricted to its ASCII action: uppercase letters
map to lowercase, everything else is fixed. -/
def lowerCp (c : Nat) : Nat :=
  if 65 ≤ c ∧ c ≤ 90 then c + 32 else c

/-- Lowercasing of a whole string, as payload.lower() in the source. -/
def lowerStr (l : PyStr) : PyStr := l.map lowerCp

/-- Run-collapsing scanner. The flag records that a whitespace run is
pending: a pending run followed by a further character emits one space. -/
def collapseAux : Bool → PyStr → PyStr
  | _, [] => []
  | pending, c :: cs =>
    if isWs c then collapseAux true cs
    else cond pending (32 :: c :: collapseAux false cs) (c :: collapseAux false cs)

/-- Modelled from the spec: metamaska.utils.remove_whitespace is missing
from the source tree. Spec section 4.1 step 4: strip leading and trailing
whitespace and reduce every internal run of one-or-more whitespace
characters to a single space. The shipped test suite pins the stripping
behaviour (test_remove_whitespace). -/
def remove_whitespace (l : PyStr) : PyStr :=
  collapseAux false (l.dropWhile isWs)

/-- Error taxonomy of the inference side, spec section 7. The source
raises ValueError in both places; the spec names them InvalidInputError
and ArtifactUnavailableError. -/
inductive MError where
  | invalidInput
  | artifactUnavailable
  deriving DecidableEq, Repr

/-- Embedding of PayloadClassifier._transform from payload_classifier.py:
reject falsy payloads (absent or empty), then apply unquote,
remove_new_line, str.lower and remove_whitespace in that order. -/
def transform (payload : Option PyStr) : Except MError PyStr :=
  match payload with
  | none => .error .invalidInput
  | some p =>
    if p = [] then .error .invalidInput
    else
      let p1 := unquote p
      let p2 := remove_new_line p1
      let p3 := lowerStr p2
      let p4 := remove_whitespace p3
      .ok p4

/-- The closed label set, spec section 3. -/
inductive Label where
  | valid
  | sqli
  | xss
  | cmdi
  | pathTraversal
  deriving DecidableEq, Repr

/-- Modelled from the spec: the fitted classifier artifact (the loaded
scikit-learn pipeline payload_clf) is external to the source tree. Spec
section 4.3: a probabilistic multiclass classifier over the closed label
set, carrying its class list and a probability function. -/
structure FittedClassifier where
  classes : List Label
  proba : PyStr → Label → ℚ

/-- Modelled from the spec: spec section 4.3 states that predict returns
the argmax label with ties broken by a stable deterministic ordering.
This argmax keeps the earliest class attaining the maximum. -/
def argmaxBy (f : Label → ℚ) : List Label → Option Label
  | [] => none
  | c :: cs =>
    match argmaxBy f cs with
    | none => some c
    | some d => if f c < f d then some d else some c

/-- Embedding of PayloadClassifier.predict: transform, then delegate the
normalized payload to the fitted classifier. -/
def predict (clf : FittedClassifier) (payload : Option PyStr) :
    Except MError (Option Label) :=
  (transform payload).map (fun p => argmaxBy (clf.proba p) clf.classes)

/-- Embedding of PayloadClassifier.predict_proba: transform, then return
the probability distribution of the fitted classifier. -/
def predict_proba (clf : FittedClassifier) (payload : Option PyStr) :
    Except MError (Label → ℚ) :=
  (transform payload).map (fun p => clf.proba p)

/-- Remote repository id constant from payload_classifier.py. -/
def HF_REPO_ID : String := "happyhackingspace/metamaska"

/-- Remote filename constant from payload_classifier.py. -/
def HF_FILENAME : String := "models/payload_clf.joblib"

/-- Outcome of the artifact loader: either the existing local path is used
unchanged, or a fetch is issued against the named remote repository after
creating the parent directory. Paths are lists of components, so dirname
is dropLast. -/
inductive EnsureAction where
  | useLocal (path : List String)
  | fetch (repoId filename : String) (mkdirDir localDir : List String)
  deriving DecidableEq, Repr

/-- Embedding of ensure_model from payload_classifier.py: empty path is
rejected, an existing file is returned unchanged, otherwise the parent
directory is created and the artifact is fetched from the remote
repository with local_dir the grandparent directory. -/
def ensure_model (isFile : List String → Bool) (path : List String) :
    Except MError EnsureAction :=
  if path = [] then .error .artifactUnavailable
  else if isFile path then .ok (.useLocal path)
  else .ok (.fetch HF_REPO_ID HF_FILENAME path.dropLast path.dropLast.dropLast)

/-- A labeled dataset record, as the pattern and type dictionary of
scripts/collect_data.py. -/
structure LabeledRecord where
  pattern : PyStr
  type : String
  deriving DecidableEq, Repr

/-- The VALID_TYPES set of scripts/collect_data.py. -/
def VALID_TYPES : List String := ["valid", "sqli", "xss", "cmdi", "path-traversal"]

/-- Python str.strip on the trailing side: drop trailing whitespace. -/
def dropTrailing (l : PyStr) : PyStr :=
  (l.reverse.dropWhile isWs).reverse

/-- Python str.strip: drop leading and trailing whitespace. -/
def stripWs (l : PyStr) : PyStr :=
  dropTrailing (l.dropWhile isWs)

/-- Embedding of make_record from scripts/collect_data.py: strip the
pattern, reject empty patterns and types outside VALID_TYPES. -/
def make_record (pattern : PyStr) (type_ : String) : Option LabeledRecord :=
  let p := stripWs pattern
  if p = [] ∨ type_ ∉ VALID_TYPES then none
  else some ⟨p, type_⟩

/-- Records emitted by a collector source: every appended record passes
through make_record, records rejected there are skipped. -/
def collectRecords (inputs : List (PyStr × String)) : List LabeledRecord :=
  inputs.filterMap (fun it => make_record it.1 it.2)

/-- Embedding of the loop body of deduplicate from scripts/collect_data.py.
The seen set holds the keys already emitted; the key of a record is the
pattern and type pair, which is the whole record. -/
def dedupAux (seen : List LabeledRecord) : List LabeledRecord → List LabeledRecord
  | [] => []
  | r :: rs =>
    if r ∈ seen then dedupAux seen rs
    else r :: dedupAux (r :: seen) rs

/-- Embedding of deduplicate from scripts/collect_data.py. -/
def deduplicate (l : List LabeledRecord) : List LabeledRecord :=
  dedupAux [] l

/-- Training-side failure modes. The source exits the process for
missingDatasetFile and accuracyGate; emptyDatasetKeyError is the KeyError
pandas raises at the df column accesses (train.py lines 65 to 68) when the
loaded JSON array is empty and the frame has no columns; splitValueError
is the ValueError scikit-learn raises inside stratified train_test_split
on degenerate class counts (train.py lines 71 to 73); datasetValidation
is the DatasetValidationError the spec adds and the source never raises. -/
inductive TrainErr where
  | missingDatasetFile
  | emptyDatasetKeyError
  | splitValueError
  | accuracyGate
  | datasetValidation
  deriving DecidableEq, Repr

/-- Observable outcome of a training run: which train partition the
pipeline was fitted on, if any, and the failure, if any. -/
structure TrainResult where
  fitOn : Option (List LabeledRecord)
  err : Option TrainErr
  deriving DecidableEq, Repr

/-- The MIN_ACCURACY constant of scripts/train.py, the rational 0.98. -/
def MIN_ACCURACY : ℚ := mkRat 98 100

/-- Embedding of main from scripts/train.py. The dataset file content is
an optional record list (absent file means exit before anything runs).
Loading an empty JSON array gives a column-less frame, so the column
accesses on train.py lines 65 to 68 raise KeyError before any split. The
stratified split is an opaque library call whose ValueError on degenerate
class counts is modelled by letting the split parameter return none; the
numeric test-set score is likewise a parameter. modelFile is the artifact
on disk before the run and the second component of the result is the
artifact on disk after the run. Between loading and splitting the source
performs no dataset-content validation (train.py lines 63 to 80). -/
def trainMain
    (datasetFile : Option (List LabeledRecord))
    (split : List LabeledRecord → Option (List LabeledRecord × List LabeledRecord))
    (score : List LabeledRecord → ℚ)
    (modelFile : Option (List LabeledRecord)) :
    TrainResult × Option (List LabeledRecord) :=
  match datasetFile with
  | none => (⟨none, some .missingDatasetFile⟩, modelFile)
  | some ds =>
    if ds = [] then (⟨none, some .emptyDatasetKeyError⟩, modelFile)
    else
      match split ds with
      | none => (⟨none, some .splitValueError⟩, modelFile)
      | some parts =>
        let fitted := parts.1
        let testAcc := score parts.2
        if testAcc < MIN_ACCURACY then (⟨some fitted, some .accuracyGate⟩, modelFile)
        else (⟨some fitted, none⟩, some fitted)

/-- A concrete dataset with two classes of four records each, one class
labelled outside the closed set. Its shape is benign for the library
calls: the stratified 75/25 split has two members per class in every
partition and the two classes satisfy the fit preconditions, so the real
run splits and fits it without any error. -/
def dsBogus : List LabeledRecord :=
  [⟨cps "a1", "valid"⟩, ⟨cps "a2", "valid"⟩, ⟨cps "a3", "valid"⟩,
   ⟨cps "b1", "bogus"⟩, ⟨cps "b2", "bogus"⟩, ⟨cps "b3", "bogus"⟩,
   ⟨cps "a4", "valid"⟩, ⟨cps "b4", "bogus"⟩]

/-- A concrete stand-in for the stratified splitter: it refuses lists
shorter than four records (as scikit-learn does when a class is too small
to stratify) and otherwise takes the first six records as the train
partition and the last two as the test partition. -/
def splitSix : List LabeledRecord → Option (List LabeledRecord × List LabeledRecord) :=
  fun l => if l.length < 4 then none else some (l.take 6, l.drop 6)

/-- The shipped test test_unquote holds of the modelled unquote. -/
theorem utils_test_unquote :
    unquote (cps "\"onfocus=\"alert('Y000')\"+autofocus=\"") =
      cps "\"onfocus=\"alert('Y000')\" autofocus=\"" := by decide

/-- The shipped test test_remove_new_line holds of the modelled function. -/
theorem utils_test_remove_new_line :
    remove_new_line (cps "payload\n") = cps "payload" := by decide

/-- The shipped test test_remove_whitespace holds of the modelled function. -/
theorem utils_test_remove_whitespace :
    remove_whitespace (cps " payload ") = cps "payload" := by decide

theorem unquote_plus (cs : PyStr) : unquote (43 :: cs) = 32 :: unquote cs := rfl

theorem unquote_pct (a b : Nat) (rest : PyStr)
    (h : (isHexDigitCp a && isHexDigitCp b) = true) :
    unquote (37 :: a :: b :: rest) = (16 * hexVal a + hexVal b) :: unquote rest := by
  rw [unquote, if_pos h]

theorem unquote_pct_bad (a b : Nat) (rest : PyStr)
    (h : (isHexDigitCp a && isHexDigitCp b) = false) :
    unquote (37 :: a :: b :: rest) = 37 :: unquote (a :: b :: rest) := by
  rw [unquote, if_neg (by simp [h])]

theorem unquote_cons {c : Nat} (cs : PyStr) (h43 : c ≠ 43) (h37 : c ≠ 37) :
    unquote (c :: cs) = c :: unquote cs := by
  rw [unquote.eq_def]
  split <;> simp_all

theorem unquote_allws :
    ∀ l : PyStr, (∀ c ∈ l, isWs c = true) → unquote l = l := by
  intro l
  induction l with
  | nil => intro _; rfl
  | cons c cs ih =>
    intro h
    have hc : isWs c = true := h c (List.mem_cons_self c cs)
    have hns : c ≠ 43 ∧ c ≠ 37 := by simp [isWs] at hc; omega
    rw [unquote_cons cs hns.1 hns.2, ih (fun x hx => h x (List.mem_cons_of_mem _ hx))]

theorem mem_collapseAux {c : Nat} :
    ∀ (l : PyStr) (b : Bool), c ∈ collapseAux b l →
      c = 32 ∨ (c ∈ l ∧ isWs c = false) := by
  intro l
  induction l with
  | nil => intro b h; simp [collapseAux] at h
  | cons d ds ih =>
    intro b h
    cases hd : isWs d with
    | true =>
      rw [collapseAux, if_pos hd] at h
      rcases ih true h with h32 | ⟨hm, hw⟩
      · exact Or.inl h32
      · exact Or.inr ⟨List.mem_cons_of_mem _ hm, hw⟩
    | false =>
      rw [collapseAux, if_neg (by simp [hd])] at h
      cases b with
      | true =>
        rcases List.mem_cons.mp h with h32 | h2
        · exact Or.inl h32
        · rcases List.mem_cons.mp h2 with hcd | hm
          · exact Or.inr ⟨by simp [hcd], by rw [hcd]; exact hd⟩
          · rcases ih false hm with h32 | ⟨hm2, hw⟩
            · exact Or.inl h32
            · exact Or.inr ⟨List.mem_cons_of_mem _ hm2, hw⟩
      | false =>
        rcases List.mem_cons.mp h with hcd | hm
        · exact Or.inr ⟨by simp [hcd], by rw [hcd]; exact hd⟩
        · rcases ih false hm with h32 | ⟨hm2, hw⟩
          · exact Or.inl h32
          · exact Or.inr ⟨List.mem_cons_of_mem _ hm2, hw⟩

theorem collapseAux_fix :
    ∀ l : PyStr, collapseAux false (collapseAux false l) = collapseAux false l
      ∧ collapseAux false (collapseAux true l) = collapseAux true l := by
  intro l
  induction l with
  | nil => exact ⟨rfl, rfl⟩
  | cons c cs ih =>
    cases hc : isWs c with
    | true =>
      constructor
      · rw [collapseAux, if_pos hc]; exact ih.2
      · conv_lhs => rw [collapseAux, if_pos hc]
        rw [collapseAux, if_pos hc]
        exact ih.2
    | false =>
      constructor
      · rw [collapseAux, if_neg (by simp [hc])]
        simp only [cond_false]
        rw [collapseAux, if_neg (by simp [hc])]
        simp only [cond_false]
        rw [ih.1]
      · conv_lhs => rw [collapseAux, if_neg (by simp [hc])]
        rw [collapseAux, if_neg (by simp [hc])]
        simp only [cond_true]
        rw [collapseAux, if_pos (by simp [isWs] : isWs 32 = true)]
        rw [collapseAux, if_neg (by simp [hc])]
        simp only [cond_true]
        rw [ih.1]

theorem dropWhile_head_false {l : PyStr} {c : Nat} {cs : PyStr}
    (h : l.dropWhile isWs = c :: cs) : isWs c = false := by
  induction l with
  | nil => simp [List.dropWhile] at h
  | cons x xs ih =>
    cases hx : isWs x with
    | true => rw [List.dropWhile, hx] at h; exact ih h
    | false => rw [List.dropWhile, hx] at h; cases h; exact hx

theorem remove_whitespace_idem (l : PyStr) :
    remove_whitespace (remove_whitespace l) = remove_whitespace l := by
  unfold remove_whitespace
  have hdrop : (collapseAux false (l.dropWhile isWs)).dropWhile isWs
      = collapseAux false (l.dropWhile isWs) := by
    cases hm : l.dropWhile isWs with
    | nil => simp [collapseAux]
    | cons c cs =>
      have hc : isWs c = false := dropWhile_head_false hm
      rw [collapseAux, if_neg (by simp [hc])]
      simp only [cond_false]
      rw [List.dropWhile, hc]
  rw [hdrop, (collapseAux_fix (l.dropWhile isWs)).1]

theorem lowerCp_idem (c : Nat) : lowerCp (lowerCp c) = lowerCp c := by
  unfold lowerCp
  by_cases h : 65 ≤ c ∧ c ≤ 90
  · rw [if_pos h, if_neg (by omega)]
  · rw [if_neg h, if_neg h]

theorem lowerCp_ws (c : Nat) (h : isWs c = true) : lowerCp c = c := by
  simp [isWs] at h
  unfold lowerCp
  rw [if_neg (by omega)]

theorem lowerStr_fixed {l : PyStr} (h : ∀ c ∈ l, lowerCp c = c) :
    lowerStr l = l := by
  unfold lowerStr
  induction l with
  | nil => rfl
  | cons c cs ih =>
    rw [List.map_cons, h c (by simp), ih (fun x hx => h x (by simp [hx]))]

theorem remove_new_line_fixed {l : PyStr}
    (h : ∀ c ∈ l, c ≠ 10 ∧ c ≠ 13) :
    remove_new_line l = l := by
  unfold remove_new_line
  rw [List.filter_eq_self]
  intro a ha
  simpa using h a ha

theorem dropWhile_append_last {c : Nat} (hc : isWs c = false) :
    ∀ l : PyStr, (l ++ [c]).dropWhile isWs = l.dropWhile isWs ++ [c] := by
  intro l
  induction l with
  | nil => simp [List.dropWhile, hc]
  | cons x xs ih =>
    cases hx : isWs x with
    | true => rw [List.cons_append, List.dropWhile, hx, List.dropWhile, hx, ih]
    | false =>
      rw [List.cons_append, List.dropWhile, hx, List.dropWhile, hx]
      rfl

theorem dropWhile_dropWhile (l : PyStr) :
    (l.dropWhile isWs).dropWhile isWs = l.dropWhile isWs := by
  cases hm : l.dropWhile isWs with
  | nil => rfl
  | cons c cs => rw [List.dropWhile, dropWhile_head_false hm]

theorem stripWs_idem (l : PyStr) : stripWs (stripWs l) = stripWs l := by
  unfold stripWs dropTrailing
  cases hm : l.dropWhile isWs with
  | nil => simp [List.dropWhile]
  | cons c cs =>
    have hc : isWs c = false := dropWhile_head_false hm
    rw [List.reverse_cons, dropWhile_append_last hc, List.reverse_append]
    simp only [List.reverse_cons, List.reverse_nil, List.nil_append,
      List.singleton_append]
    rw [List.dropWhile, hc]
    rw [List.reverse_cons, dropWhile_append_last hc, List.reverse_append]
    simp only [List.reverse_reverse, List.reverse_cons, List.reverse_nil,
      List.nil_append, List.singleton_append]
    rw [dropWhile_dropWhile]

theorem dedupAux_sublist :
    ∀ (l : List LabeledRecord) (seen), List.Sublist (dedupAux seen l) l := by
  intro l
  induction l with
  | nil => intro seen; simp [dedupAux]
  | cons r rs ih =>
    intro seen
    rw [dedupAux]
    by_cases hr : r ∈ seen
    · rw [if_pos hr]; exact List.Sublist.cons r (ih seen)
    · rw [if_neg hr]; exact List.Sublist.cons₂ r (ih (r :: seen))

theorem dedupAux_mem :
    ∀ (l : List LabeledRecord) (seen r),
      r ∈ dedupAux seen l ↔ (r ∈ l ∧ r ∉ seen) := by
  intro l
  induction l with
  | nil => intro seen r; simp [dedupAux]
  | cons x xs ih =>
    intro seen r
    rw [dedupAux]
    by_cases hx : x ∈ seen
    · rw [if_pos hx, ih]
      constructor
      · rintro ⟨hm, hs⟩; exact ⟨List.mem_cons_of_mem _ hm, hs⟩
      · rintro ⟨hm, hs⟩
        rcases List.mem_cons.mp hm with hrx | hm2
        · exact absurd (hrx ▸ hx) hs
        · exact ⟨hm2, hs⟩
    · rw [if_neg hx]
      constructor
      · intro h
        rcases List.mem_cons.mp h with hrx | hm
        · exact ⟨by simp [hrx], by rw [hrx]; exact hx⟩
        · obtain ⟨hm2, hs2⟩ := (ih (x :: seen) r).mp hm
          exact ⟨List.mem_cons_of_mem _ hm2,
            fun hs => hs2 (List.mem_cons_of_mem _ hs)⟩
      · rintro ⟨hm, hs⟩
        rcases List.mem_cons.mp hm with hrx | hm2
        · exact hrx ▸ List.mem_cons_self x _
        · by_cases hxr : r = x
          · exact hxr ▸ List.mem_cons_self x _
          · exact List.mem_cons_of_mem _
              ((ih (x :: seen) r).mpr ⟨hm2, by
                intro hmem
                rcases List.mem_cons.mp hmem with h1 | h2
                · exact hxr h1
                · exact hs h2⟩)

theorem dedupAux_nodup :
    ∀ (l : List LabeledRecord) (seen), (dedupAux seen l).Nodup := by
  intro l
  induction l with
  | nil => intro seen; simp [dedupAux]
  | cons x xs ih =>
    intro seen
    rw [dedupAux]
    by_cases hx : x ∈ seen
    · rw [if_pos hx]; exact ih seen
    · rw [if_neg hx]
      refine List.nodup_cons.mpr ⟨?_, ih (x :: seen)⟩
      intro hmem
      exact ((dedupAux_mem xs (x :: seen) x).mp hmem).2 (List.mem_cons_self x seen)

theorem dedupAux_take :
    ∀ (l : List LabeledRecord) (seen n),
      ∃ t, dedupAux seen (l.take n) ++ t = dedupAux seen l := by
  intro l
  induction l with
  | nil => intro seen n; exact ⟨[], by simp [dedupAux]⟩
  | cons x xs ih =>
    intro seen n
    cases n with
    | zero => exact ⟨dedupAux seen (x :: xs), by simp [dedupAux]⟩
    | succ m =>
      rw [List.take_succ_cons, dedupAux, dedupAux]
      by_cases hx : x ∈ seen
      · rw [if_pos hx, if_pos hx]; exact ih seen m
      · rw [if_neg hx, if_neg hx]
        obtain ⟨t, ht⟩ := ih (x :: seen) m
        exact ⟨t, by rw [List.cons_append, ht]⟩

theorem argmaxBy_spec (f : Label → ℚ) :
    ∀ (l : List Label) (a : Label), argmaxBy f l = some a →
      a ∈ l ∧ ∀ b ∈ l, f b ≤ f a := by
  intro l
  induction l with
  | nil => intro a h; simp [argmaxBy] at h
  | cons c cs ih =>
    intro a h
    rw [argmaxBy] at h
    cases hrec : argmaxBy f cs with
    | none =>
      rw [hrec] at h
      have hca : c = a := by injection h
      have hcs : cs = [] := by
        cases cs with
        | nil => rfl
        | cons d ds =>
          rw [argmaxBy] at hrec
          cases h2 : argmaxBy f ds with
          | none => rw [h2] at hrec; simp at hrec
          | some e =>
            rw [h2] at hrec
            by_cases hlt : f d < f e <;> simp [hlt] at hrec
      subst hcs
      subst hca
      refine ⟨List.mem_singleton_self c, ?_⟩
      intro b hb
      rw [List.mem_singleton.mp hb]
    | some d =>
      rw [hrec] at h
      have h2 : (if f c < f d then some d else some c) = some a := h
      obtain ⟨hdm, hdb⟩ := ih d hrec
      by_cases hlt : f c < f d
      · rw [if_pos hlt] at h2
        have hda : d = a := by injection h2
        subst hda
        refine ⟨List.mem_cons_of_mem _ hdm, ?_⟩
        intro b hb
        rcases List.mem_cons.mp hb with hbc | hbm
        · rw [hbc]; exact le_of_lt hlt
        · exact hdb b hbm
      · rw [if_neg hlt] at h2
        have hca : c = a := by injection h2
        subst hca
        refine ⟨List.mem_cons_self _ _, ?_⟩
        intro b hb
        rcases List.mem_cons.mp hb with hbc | hbm
        · rw [hbc]
        · exact le_trans (hdb b hbm) (le_of_not_lt hlt)

theorem transform_ok (p : PyStr) (h : p ≠ []) :
    transform (some p)
      = .ok (remove_whitespace (lowerStr (remove_new_line (unquote p)))) := by
  simp [transform, h]

/-- Claim C1: for every non-empty payload, transform applies exactly the
four steps in order: one percent-decode pass (decoding hex escapes and
plus as space, passing malformed escapes through), removal of newline and
carriage-return characters, lowercasing, and whitespace collapsing. -/
theorem c1_transform_steps (p : PyStr) (hp : p ≠ [])
    (rest rest2 rest3 : PyStr) (a b a2 b2 : Nat)
    (hhex : (isHexDigitCp a && isHexDigitCp b) = true)
    (hbad : (isHexDigitCp a2 && isHexDigitCp b2) = false) :
    transform (some p)
      = .ok (remove_whitespace (lowerStr (remove_new_line (unquote p))))
    ∧ unquote (43 :: rest) = 32 :: unquote rest
    ∧ unquote (37 :: a :: b :: rest2) = (16 * hexVal a + hexVal b) :: unquote rest2
    ∧ unquote (37 :: a2 :: b2 :: rest3) = 37 :: unquote (a2 :: b2 :: rest3) :=
  ⟨transform_ok p hp, unquote_plus rest, unquote_pct a b rest2 hhex,
   unquote_pct_bad a2 b2 rest3 hbad⟩

/-- Claim C1 witness: the theorem applied at concrete inputs. -/
theorem c1_transform_steps_witness :
    (cps "A B" ≠ []) ∧ (isHexDigitCp 52 && isHexDigitCp 49) = true
    ∧ (isHexDigitCp 122 && isHexDigitCp 122) = false
    ∧ (transform (some (cps "A B"))
        = .ok (remove_whitespace (lowerStr (remove_new_line (unquote (cps "A B")))))
       ∧ unquote (43 :: []) = 32 :: unquote []
       ∧ unquote (37 :: 52 :: 49 :: []) = (16 * hexVal 52 + hexVal 49) :: unquote []
       ∧ unquote (37 :: 122 :: 122 :: []) = 37 :: unquote (122 :: 122 :: [])) :=
  ⟨by decide, by decide, by decide,
   c1_transform_steps (cps "A B") (by decide) [] [] [] 52 49 122 122
     (by decide) (by decide)⟩

/-- Claim C2 counterexample: normalization is not idempotent on all
non-empty inputs. The doubly encoded payload with code points of %2541
normalizes to %41, and normalizing again decodes once more, to a. -/
theorem c2_idem_counterexample :
    transform (some (cps "%2541")) = .ok (cps "%41")
    ∧ transform (some (cps "%41")) = .ok (cps "a")
    ∧ cps "%41" ≠ cps "a" :=
  ⟨by decide, by decide, by decide⟩

/-- Claim C2 as amended: normalization is idempotent exactly on outputs the
percent-decoder leaves unchanged and that are non-empty: if transform maps
x to y, the decode pass fixes y, and y is non-empty, then transform maps y
to y. In general idempotence fails, both on payloads whose decoded form
still contains decodable escapes and on whitespace-only payloads whose
output is empty and is rejected when fed back. -/
theorem c2_idem_amended (x y : PyStr) (hy : transform (some x) = .ok y)
    (hfix : unquote y = y) (hne : y ≠ []) :
    transform (some y) = .ok y := by
  have hx : x ≠ [] := by
    intro h
    subst h
    simp [transform] at hy
  rw [transform_ok x hx] at hy
  have hy2 : remove_whitespace (lowerStr (remove_new_line (unquote x))) = y := by
    injection hy
  have hmem : ∀ c ∈ y, c = 32 ∨ isWs c = false := by
    intro c hc
    rw [← hy2] at hc
    unfold remove_whitespace at hc
    rcases mem_collapseAux _ _ hc with h32 | ⟨_, hws⟩
    · exact Or.inl h32
    · exact Or.inr hws
  have hmaps : ∀ c ∈ y, lowerCp c = c := by
    intro c hc
    rw [← hy2] at hc
    unfold remove_whitespace at hc
    rcases mem_collapseAux _ _ hc with h32 | ⟨hin, _⟩
    · rw [h32]; decide
    · have hin2 : c ∈ lowerStr (remove_new_line (unquote x)) :=
        (List.dropWhile_sublist _).subset hin
      obtain ⟨d, _, hdc⟩ := List.mem_map.mp hin2
      rw [← hdc]
      exact lowerCp_idem d
  rw [transform_ok y hne, hfix]
  rw [remove_new_line_fixed (by
    intro c hc
    rcases hmem c hc with h32 | hws
    · omega
    · constructor <;> intro h <;> rw [h] at hws <;> simp [isWs] at hws)]
  rw [lowerStr_fixed hmaps]
  rw [← hy2, remove_whitespace_idem, hy2]

/-- Claim C2 amended witness: the amended theorem applied at a concrete
decode-fixed payload. -/
theorem c2_idem_amended_witness :
    transform (some (cps "abc")) = .ok (cps "abc")
    ∧ unquote (cps "abc") = cps "abc"
    ∧ cps "abc" ≠ []
    ∧ transform (some (cps "abc")) = .ok (cps "abc") :=
  ⟨by decide, by decide, by decide,
   c2_idem_amended (cps "abc") (cps "abc") (by decide) (by decide) (by decide)⟩

/-- Claim C3: an absent or empty payload makes transform, predict and
predict_proba fail with the invalid-input error, never any other error and
never a default label. -/
theorem c3_empty_input_invalid :
    transform none = .error .invalidInput
    ∧ transform (some []) = .error .invalidInput
    ∧ ∀ clf : FittedClassifier,
        predict clf none = .error .invalidInput
        ∧ predict clf (some []) = .error .invalidInput
        ∧ predict_proba clf none = .error .invalidInput
        ∧ predict_proba clf (some []) = .error .invalidInput :=
  ⟨rfl, rfl, fun _ => ⟨rfl, rfl, rfl, rfl⟩⟩

/-- Claim C4: predict equals the argmax of predict_proba over the class
list, and the argmax is a maximal member of the class list (ties broken
deterministically by keeping the earliest class). -/
theorem c4_predict_argmax (clf : FittedClassifier) (p : Option PyStr)
    (f : Label → ℚ) (l : List Label) (a : Label)
    (h : argmaxBy f l = some a) :
    predict clf p
      = Except.map (fun dist => argmaxBy dist clf.classes) (predict_proba clf p)
    ∧ a ∈ l ∧ ∀ b ∈ l, f b ≤ f a := by
  refine ⟨?_, argmaxBy_spec f l a h⟩
  unfold predict predict_proba
  cases transform p <;> rfl

/-- Claim C4 witness: the theorem applied at a concrete classifier and
score function. -/
theorem c4_predict_argmax_witness :
    argmaxBy (fun lb => if lb = Label.sqli then (1 : ℚ) else 0)
      [Label.valid, Label.sqli] = some Label.sqli
    ∧ predict ⟨[Label.valid, Label.sqli],
          fun _ lb => if lb = Label.sqli then (1 : ℚ) else 0⟩ (some (cps "x"))
        = Except.map (fun dist => argmaxBy dist [Label.valid, Label.sqli])
            (predict_proba ⟨[Label.valid, Label.sqli],
              fun _ lb => if lb = Label.sqli then (1 : ℚ) else 0⟩ (some (cps "x")))
    ∧ Label.sqli ∈ [Label.valid, Label.sqli] :=
  ⟨by decide,
   (c4_predict_argmax ⟨[Label.valid, Label.sqli],
      fun _ lb => if lb = Label.sqli then (1 : ℚ) else 0⟩ (some (cps "x"))
      (fun lb => if lb = Label.sqli then (1 : ℚ) else 0)
      [Label.valid, Label.sqli] Label.sqli (by decide)).1,
   (c4_predict_argmax ⟨[Label.valid, Label.sqli],
      fun _ lb => if lb = Label.sqli then (1 : ℚ) else 0⟩ (some (cps "x"))
      (fun lb => if lb = Label.sqli then (1 : ℚ) else 0)
      [Label.valid, Label.sqli] Label.sqli (by decide)).2.1⟩

/-- Claim C5: when a split was computed and the held-out test accuracy is
below MIN_ACCURACY the training run fails with the accuracy-gate error and
the model file on disk is unchanged: no artifact is published. -/
theorem c5_accuracy_gate (ds : List LabeledRecord)
    (split : List LabeledRecord → Option (List LabeledRecord × List LabeledRecord))
    (score : List LabeledRecord → ℚ)
    (fs : Option (List LabeledRecord))
    (parts : List LabeledRecord × List LabeledRecord)
    (hds : ds ≠ []) (hsplit : split ds = some parts)
    (h : score parts.2 < MIN_ACCURACY) :
    trainMain (some ds) split score fs
      = (⟨some parts.1, some .accuracyGate⟩, fs) := by
  simp only [trainMain]
  rw [if_neg hds, hsplit]
  simp only
  rw [if_pos h]

/-- Claim C5 witness: the gate fires at accuracy nine tenths. -/
theorem c5_accuracy_gate_witness :
    ([⟨cps "x", "valid"⟩] : List LabeledRecord) ≠ []
    ∧ (fun l : List LabeledRecord => some (l, l)) [⟨cps "x", "valid"⟩]
        = some ([⟨cps "x", "valid"⟩], [⟨cps "x", "valid"⟩])
    ∧ mkRat 9 10 < MIN_ACCURACY
    ∧ trainMain (some [⟨cps "x", "valid"⟩]) (fun l => some (l, l))
        (fun _ => mkRat 9 10) none
        = (⟨some [⟨cps "x", "valid"⟩], some .accuracyGate⟩, none) :=
  ⟨by decide, by decide, by decide,
   c5_accuracy_gate [⟨cps "x", "valid"⟩] (fun l => some (l, l))
     (fun _ => mkRat 9 10) none ([⟨cps "x", "valid"⟩], [⟨cps "x", "valid"⟩])
     (by decide) (by decide) (by decide)⟩

/-- Claim C6 counterexample: the dataset dsBogus contains records whose
label is outside the closed set, yet the run is not rejected with the
dataset-validation error: it splits and fits the pipeline and, with a
passing score, even publishes the artifact; and the empty dataset fails
with the pandas KeyError at the column access, again not with the
dataset-validation error, before any split or fit. -/
theorem c6_validation_counterexample :
    "bogus" ∉ VALID_TYPES
    ∧ (⟨cps "b1", "bogus"⟩ : LabeledRecord) ∈ dsBogus
    ∧ (trainMain (some dsBogus) splitSix (fun _ => mkRat 1 1) none).1.err
        ≠ some TrainErr.datasetValidation
    ∧ (trainMain (some dsBogus) splitSix (fun _ => mkRat 1 1) none).1.fitOn
        = some (dsBogus.take 6)
    ∧ (trainMain (some []) splitSix (fun _ => mkRat 1 1) none).1.err
        = some TrainErr.emptyDatasetKeyError
    ∧ (trainMain (some []) splitSix (fun _ => mkRat 1 1) none).1.fitOn = none :=
  ⟨by decide, by decide, by decide, by decide, by decide, by decide⟩

/-- Claim C6 as amended: the training run performs no dataset-content
validation and can never fail with the dataset-validation error. The
failures that do occur on degenerate content are library errors: an empty
dataset raises KeyError at the column access before any split or fit, and
a dataset the stratified splitter rejects raises ValueError before any
fit, both leaving the model file unchanged; a dataset the splitter
accepts is fitted regardless of its labels; and a missing dataset file
aborts before anything runs. -/
theorem c6_no_dataset_validation
    (dsFile : Option (List LabeledRecord))
    (split : List LabeledRecord → Option (List LabeledRecord × List LabeledRecord))
    (score : List LabeledRecord → ℚ)
    (fs : Option (List LabeledRecord))
    (ds1 ds2 : List LabeledRecord)
    (parts : List LabeledRecord × List LabeledRecord)
    (hne1 : ds1 ≠ []) (h1 : split ds1 = none)
    (hne2 : ds2 ≠ []) (h2 : split ds2 = some parts) :
    (trainMain dsFile split score fs).1.err ≠ some TrainErr.datasetValidation
    ∧ trainMain (some []) split score fs
        = (⟨none, some TrainErr.emptyDatasetKeyError⟩, fs)
    ∧ trainMain (some ds1) split score fs
        = (⟨none, some TrainErr.splitValueError⟩, fs)
    ∧ (trainMain (some ds2) split score fs).1.fitOn = some parts.1
    ∧ trainMain none split score fs
        = (⟨none, some TrainErr.missingDatasetFile⟩, fs) := by
  refine ⟨?_, rfl, ?_, ?_, rfl⟩
  · match dsFile with
    | none => simp [trainMain]
    | some ds =>
      simp only [trainMain]
      by_cases hds : ds = []
      · simp [hds]
      · rw [if_neg hds]
        match split ds with
        | none => simp
        | some p =>
          simp only
          by_cases h : score p.2 < MIN_ACCURACY <;> simp [h]
  · simp only [trainMain]
    rw [if_neg hne1, h1]
  · simp only [trainMain]
    rw [if_neg hne2, h2]
    simp only
    by_cases h : score parts.2 < MIN_ACCURACY <;> simp [h]

/-- Claim C6 amended witness: the amended theorem applied at the concrete
splitter splitSix, the short dataset it rejects, and the dataset dsBogus
it accepts. -/
theorem c6_no_dataset_validation_witness :
    ([⟨cps "x", "bogus"⟩] : List LabeledRecord) ≠ []
    ∧ splitSix [⟨cps "x", "bogus"⟩] = none
    ∧ dsBogus ≠ []
    ∧ splitSix dsBogus = some (dsBogus.take 6, dsBogus.drop 6)
    ∧ ((trainMain (some dsBogus) splitSix (fun _ => mkRat 1 1) none).1.err
        ≠ some TrainErr.datasetValidation
       ∧ trainMain (some []) splitSix (fun _ => mkRat 1 1) none
          = (⟨none, some TrainErr.emptyDatasetKeyError⟩, none)
       ∧ trainMain (some [⟨cps "x", "bogus"⟩]) splitSix (fun _ => mkRat 1 1) none
          = (⟨none, some TrainErr.splitValueError⟩, none)
       ∧ (trainMain (some dsBogus) splitSix (fun _ => mkRat 1 1) none).1.fitOn
          = some (dsBogus.take 6)
       ∧ trainMain none splitSix (fun _ => mkRat 1 1) none
          = (⟨none, some TrainErr.missingDatasetFile⟩, none)) :=
  ⟨by decide, by decide, by decide, by decide,
   c6_no_dataset_validation (some dsBogus) splitSix (fun _ => mkRat 1 1) none
     [⟨cps "x", "bogus"⟩] dsBogus (dsBogus.take 6, dsBogus.drop 6)
     (by decide) (by decide) (by decide) (by decide)⟩

/-- Claim C7: the artifact loader rejects an empty path with the
artifact-unavailable error; an existing file is returned unchanged with no
fetch; otherwise the parent directory is created and the artifact is
fetched from the named remote repository and filename. -/
theorem c7_ensure_model (isFile : List String → Bool) (p q : List String)
    (hp : p ≠ []) (hpf : isFile p = true) (hq : q ≠ []) (hqf : isFile q = false) :
    ensure_model isFile [] = .error .artifactUnavailable
    ∧ ensure_model isFile p = .ok (.useLocal p)
    ∧ ensure_model isFile q
        = .ok (.fetch HF_REPO_ID HF_FILENAME q.dropLast q.dropLast.dropLast) := by
  refine ⟨rfl, ?_, ?_⟩
  · rw [ensure_model, if_neg hp, if_pos hpf]
  · rw [ensure_model, if_neg hq, if_neg (by simp [hqf])]

/-- Claim C7 witness: the theorem applied at a concrete file system. -/
theorem c7_ensure_model_witness :
    (["m"] : List String) ≠ []
    ∧ (fun x : List String => decide (x = ["m"])) ["m"] = true
    ∧ (["a", "b", "c"] : List String) ≠ []
    ∧ (fun x : List String => decide (x = ["m"])) ["a", "b", "c"] = false
    ∧ (ensure_model (fun x => decide (x = ["m"])) [] = .error .artifactUnavailable
       ∧ ensure_model (fun x => decide (x = ["m"])) ["m"] = .ok (.useLocal ["m"])
       ∧ ensure_model (fun x => decide (x = ["m"])) ["a", "b", "c"]
          = .ok (.fetch HF_REPO_ID HF_FILENAME ["a", "b"] ["a"])) :=
  ⟨by decide, by decide, by decide, by decide,
   c7_ensure_model (fun x => decide (x = ["m"])) ["m"] ["a", "b", "c"]
     (by decide) (by decide) (by decide) (by decide)⟩

/-- Claim C8: every successful normalization output is free of newline and
carriage-return code points. -/
theorem c8_no_newlines (x y : PyStr) (h : transform (some x) = .ok y) :
    10 ∉ y ∧ 13 ∉ y := by
  have hx : x ≠ [] := by
    intro hx
    subst hx
    simp [transform] at h
  rw [transform_ok x hx] at h
  have hy : remove_whitespace (lowerStr (remove_new_line (unquote x))) = y := by
    injection h
  constructor <;> intro hmem <;> rw [← hy] at hmem <;>
    unfold remove_whitespace at hmem
  · rcases mem_collapseAux _ _ hmem with h32 | ⟨_, hws⟩
    · omega
    · simp [isWs] at hws
  · rcases mem_collapseAux _ _ hmem with h32 | ⟨_, hws⟩
    · omega
    · simp [isWs] at hws

/-- Claim C8 witness: the theorem applied at a payload with an embedded
newline. -/
theorem c8_no_newlines_witness :
    transform (some (cps "a\nb")) = .ok (cps "ab")
    ∧ (10 ∉ cps "ab" ∧ 13 ∉ cps "ab") :=
  ⟨by decide, c8_no_newlines (cps "a\nb") (cps "ab") (by decide)⟩

/-- Claim C9: every record in the deduplicated collector output has a
non-empty pattern equal to its own trim and a type in the closed label
set; the output has no duplicate pattern-type pair (each occurs exactly
once), is an order-preserving subsequence of the raw record stream, and
extends the deduplication of every prefix of that stream, so records
appear in first-occurrence order. -/
theorem c9_collector_invariants (inputs : List (PyStr × String))
    (r : LabeledRecord)
    (hr : r ∈ deduplicate (collectRecords inputs)) (n : Nat) :
    (r.pattern ≠ [] ∧ stripWs r.pattern = r.pattern ∧ r.type ∈ VALID_TYPES)
    ∧ (deduplicate (collectRecords inputs)).count r = 1
    ∧ List.Sublist (deduplicate (collectRecords inputs)) (collectRecords inputs)
    ∧ ∃ t, deduplicate ((collectRecords inputs).take n) ++ t
        = deduplicate (collectRecords inputs) := by
  have hmem : r ∈ collectRecords inputs :=
    ((dedupAux_mem _ [] r).mp hr).1
  refine ⟨?_, ?_, dedupAux_sublist _ [], dedupAux_take _ [] n⟩
  · obtain ⟨it, _, hmk⟩ := List.mem_filterMap.mp hmem
    have hmk2 : make_record it.1 it.2 = some r := hmk
    unfold make_record at hmk2
    by_cases hcond : stripWs it.1 = [] ∨ it.2 ∉ VALID_TYPES
    · rw [if_pos hcond] at hmk2
      exact absurd hmk2 (by simp)
    · rw [if_neg hcond] at hmk2
      push_neg at hcond
      have hr2 : (⟨stripWs it.1, it.2⟩ : LabeledRecord) = r := by
        injection hmk2
      rw [← hr2]
      exact ⟨hcond.1, stripWs_idem it.1, hcond.2⟩
  · exact List.count_eq_one_of_mem (dedupAux_nodup _ []) hr

/-- Claim C9 witness: the theorem applied to a concrete raw stream with a
duplicate, an untrimmed pattern, an empty pattern and a bad label. -/
theorem c9_collector_invariants_witness :
    (⟨cps "a", "sqli"⟩ : LabeledRecord) ∈ deduplicate (collectRecords
        [(cps " a ", "sqli"), (cps "a", "sqli"), (cps "", "sqli"), (cps "b", "nope")])
    ∧ ((⟨cps "a", "sqli"⟩ : LabeledRecord).pattern ≠ []
       ∧ stripWs (⟨cps "a", "sqli"⟩ : LabeledRecord).pattern
          = (⟨cps "a", "sqli"⟩ : LabeledRecord).pattern
       ∧ (⟨cps "a", "sqli"⟩ : LabeledRecord).type ∈ VALID_TYPES)
    ∧ (deduplicate (collectRecords
        [(cps " a ", "sqli"), (cps "a", "sqli"), (cps "", "sqli"), (cps "b", "nope")])).count
          ⟨cps "a", "sqli"⟩ = 1
    ∧ List.Sublist (deduplicate (collectRecords
        [(cps " a ", "sqli"), (cps "a", "sqli"), (cps "", "sqli"), (cps "b", "nope")]))
        (collectRecords
        [(cps " a ", "sqli"), (cps "a", "sqli"), (cps "", "sqli"), (cps "b", "nope")]) :=
  ⟨by decide,
   (c9_collector_invariants
      [(cps " a ", "sqli"), (cps "a", "sqli"), (cps "", "sqli"), (cps "b", "nope")]
      ⟨cps "a", "sqli"⟩ (by decide) 1).1,
   (c9_collector_invariants
      [(cps " a ", "sqli"), (cps "a", "sqli"), (cps "", "sqli"), (cps "b", "nope")]
      ⟨cps "a", "sqli"⟩ (by decide) 1).2.1,
   (c9_collector_invariants
      [(cps " a ", "sqli"), (cps "a", "sqli"), (cps "", "sqli"), (cps "b", "nope")]
      ⟨cps "a", "sqli"⟩ (by decide) 1).2.2.1⟩

/-- Claim C10: a non-empty whitespace-only payload is accepted by
transform, normalizes to the empty string, and predict and predict_proba
pass that empty string on to the fitted classifier instead of rejecting
the call: the empty-input error fires only on inputs empty before
normalization. -/
theorem c10_whitespace_only (x : PyStr) (hx : x ≠ [])
    (hws : x.all isWs = true) (clf : FittedClassifier) :
    transform (some x) = .ok []
    ∧ predict clf (some x) = .ok (argmaxBy (clf.proba []) clf.classes)
    ∧ predict_proba clf (some x) = .ok (clf.proba []) := by
  have hall : ∀ c ∈ x, isWs c = true := by
    simpa [List.all_eq_true] using hws
  have h0 : transform (some x) = .ok [] := by
    rw [transform_ok x hx, unquote_allws x hall]
    have h2 : ∀ c ∈ remove_new_line x, isWs c = true := by
      intro c hc
      exact hall c (List.mem_of_mem_filter hc)
    have h3 : ∀ c ∈ lowerStr (remove_new_line x), isWs c = true := by
      intro c hc
      obtain ⟨d, hd, hdc⟩ := List.mem_map.mp hc
      rw [← hdc, lowerCp_ws d (h2 d hd)]
      exact h2 d hd
    unfold remove_whitespace
    rw [List.dropWhile_eq_nil_iff.mpr h3]
    rfl
  refine ⟨h0, ?_, ?_⟩
  · rw [predict, h0]; rfl
  · rw [predict_proba, h0]; rfl

/-- Claim C10 witness: the theorem applied at the single-space payload and
a concrete classifier. -/
theorem c10_whitespace_only_witness :
    ([32] : PyStr) ≠ []
    ∧ ([32] : PyStr).all isWs = true
    ∧ (transform (some [32]) = .ok []
       ∧ predict ⟨[Label.valid], fun _ _ => mkRat 1 1⟩ (some [32])
          = .ok (argmaxBy (fun _ => mkRat 1 1) [Label.valid])
       ∧ predict_proba ⟨[Label.valid], fun _ _ => mkRat 1 1⟩ (some [32])
          = .ok (fun _ => mkRat 1 1)) :=
  ⟨by decide, by decide,
   c10_whitespace_only [32] (by decide) (by decide)
     ⟨[Label.valid], fun _ _ => mkRat 1 1⟩⟩
